import Mathlib

/-!
# Resilient RPC execution layer — verification development

Shallow embedding of the retry engine, circuit breaker, error classifier
and statistics recorder of the `stellar-suite` repository
(`src/services/rpcRetryService.ts`, `src/services/circuitBreaker.ts`).
The implementation files are not present in the source snapshot; only the
unit-test file for them is.  Every definition below is therefore modelled
from the specification, kept consistent with the assertions of the
surviving unit-test file wherever those assertions pin concrete behavior.

Time is modelled by an explicit natural-number timestamp supplied to each
call; backoff sleeping is represented by the pure delay computation
(`computeDelay` / `scheduledDelay`) rather than by real suspension.
-/

namespace StellarSuite

/-! ## String utilities

ASCII lower-casing and substring containment, used by the message-pattern
error classifier (the TypeScript source works on
`error.message.toLowerCase()` with `String.prototype.includes`). -/

/-- ASCII lower-casing of one character (models JS `toLowerCase` on the
ASCII range, which is all the classifier patterns use). -/
def charLower (c : Char) : Char :=
  if 'A' ≤ c ∧ c ≤ 'Z' then Char.ofNat (c.toNat + 32) else c

/-- ASCII lower-casing of a string. -/
def toLowerStr (s : String) : String :=
  ⟨s.data.map charLower⟩

/-- Boolean "is prefix of" on character lists. -/
def isPrefixOfB : List Char → List Char → Bool
  | [], _ => true
  | _ :: _, [] => false
  | a :: as, b :: bs => a == b && isPrefixOfB as bs

/-- Boolean "occurs as a contiguous subsequence of" on character lists. -/
def containsSeq (needle : List Char) : List Char → Bool
  | [] => isPrefixOfB needle []
  | c :: rest => isPrefixOfB needle (c :: rest) || containsSeq needle rest

/-- `strContains s pat` — `pat` occurs as a substring of `s`
(models JS `s.includes(pat)`). -/
def strContains (s pat : String) : Bool :=
  containsSeq pat.data s.data

/-! ## Data model -/

/-- Classification of a failure: worth retrying or not. -/
inductive ErrorType where
  | TRANSIENT
  | PERMANENT
deriving DecidableEq, Repr

/-- The three circuit-breaker states. -/
inductive CircuitState where
  | CLOSED
  | OPEN
  | HALF_OPEN
deriving DecidableEq, Repr

/-- Modelled from the spec: circuit-breaker construction parameters
(`failureThreshold`, `consecutiveFailuresThreshold`, `resetTimeout`,
`successThreshold`), from the missing `src/services/circuitBreaker.ts`. -/
structure CircuitBreakerConfig where
  failureThreshold : Nat
  consecutiveFailuresThreshold : Nat
  resetTimeout : Nat
  successThreshold : Nat
deriving DecidableEq, Repr

/-- Modelled from the spec: retry configuration of the missing
`src/services/rpcRetryService.ts`.  Delay quantities and the backoff
multiplier are modelled as exact rationals (the source uses JS numbers). -/
structure RetryConfig where
  maxAttempts : Nat
  initialDelayMs : ℚ
  maxDelayMs : ℚ
  backoffMultiplier : ℚ
  useJitter : Bool
  attemptTimeoutMs : Option Nat
deriving DecidableEq, Repr

/-- Modelled from the spec: mutable circuit-breaker state of the missing
`src/services/circuitBreaker.ts`. -/
structure CircuitBreaker where
  state : CircuitState
  consecutiveFailures : Nat
  totalFailures : Nat
  successCount : Nat
  lastFailureTime : Option Nat
deriving DecidableEq, Repr

/-- The freshly constructed breaker: CLOSED with all counters zero. -/
def CircuitBreaker.initial : CircuitBreaker :=
  ⟨CircuitState.CLOSED, 0, 0, 0, none⟩

/-- Modelled from the spec: `canExecute()` of the missing
`src/services/circuitBreaker.ts`.  True unless the state is OPEN and the
reset timeout has not elapsed since the last failure; when it has
elapsed, transitions the breaker to HALF_OPEN (side effect returned as
the second component). -/
def CircuitBreaker.canExecute (ccfg : CircuitBreakerConfig)
    (cb : CircuitBreaker) (now : Nat) : Bool × CircuitBreaker :=
  if cb.state = CircuitState.OPEN then
    match cb.lastFailureTime with
    | some t =>
      if t + ccfg.resetTimeout ≤ now then
        (true, { cb with state := CircuitState.HALF_OPEN, successCount := 0 })
      else
        (false, cb)
    | none =>
      (true, { cb with state := CircuitState.HALF_OPEN, successCount := 0 })
  else
    (true, cb)

/-- Modelled from the spec: `recordFailure()` of the missing
`src/services/circuitBreaker.ts`.  Increments the consecutive and total
failure counters, stamps `lastFailureTime`, and opens the circuit when a
threshold is breached (always, from HALF_OPEN). -/
def CircuitBreaker.recordFailure (ccfg : CircuitBreakerConfig)
    (cb : CircuitBreaker) (now : Nat) : CircuitBreaker :=
  let cf := cb.consecutiveFailures + 1
  let tf := cb.totalFailures + 1
  { state :=
      if cb.state = CircuitState.HALF_OPEN ∨
          ccfg.consecutiveFailuresThreshold ≤ cf ∨
          ccfg.failureThreshold ≤ tf then
        CircuitState.OPEN
      else cb.state
    consecutiveFailures := cf
    totalFailures := tf
    successCount := cb.successCount
    lastFailureTime := some now }

/-- Modelled from the spec: `recordSuccess()` of the missing
`src/services/circuitBreaker.ts`.  Resets `consecutiveFailures`; in
HALF_OPEN closes the circuit once `successThreshold` successes are
reached.  The spec's prose says the success counter is only meaningful in
HALF_OPEN, but the repository's unit test `testCircuitBreakerStats`
asserts `successCount >= 1` after a single successful call in CLOSED
state, so — following the tests, the only surviving code — the counter is
incremented on every success. -/
def CircuitBreaker.recordSuccess (ccfg : CircuitBreakerConfig)
    (cb : CircuitBreaker) : CircuitBreaker :=
  let sc := cb.successCount + 1
  if cb.state = CircuitState.HALF_OPEN then
    if ccfg.successThreshold ≤ sc then
      ⟨CircuitState.CLOSED, 0, 0, 0, none⟩
    else
      ⟨CircuitState.HALF_OPEN, 0, cb.totalFailures, sc, cb.lastFailureTime⟩
  else
    ⟨cb.state, 0, cb.totalFailures, sc, cb.lastFailureTime⟩

/-- Per-operation-name retry statistics. -/
structure RetryStats where
  totalAttempts : Nat
  successfulAttempts : Nat
  lastAttemptTime : Option Nat
deriving DecidableEq, Repr

/-- One entry of the global retry history. -/
structure RetryHistoryEntry where
  operationName : String
  success : Bool
  timestamp : Nat
  attemptNumber : Nat
deriving DecidableEq, Repr

/-- The whole mutable state of one `RpcRetryService` instance. -/
structure EngineState where
  breaker : CircuitBreaker
  stats : String → Option RetryStats
  history : List RetryHistoryEntry

/-- The freshly constructed service state. -/
def EngineState.initial : EngineState :=
  ⟨CircuitBreaker.initial, fun _ => none, []⟩

/-- Modelled from the spec: per-call statistics update of the missing
`src/services/rpcRetryService.ts`.  The spec's step "record attempt
start" suggests a per-attempt counter, but the repository's unit test
`testRetryStatsAfterFailure` asserts `totalAttempts === 1` after a call
that invoked the unit of work twice (one transient failure, then
success); following the tests, statistics are recorded once per completed
call, at its final disposition. -/
def updateStats (s : String → Option RetryStats) (name : String)
    (now : Nat) (succeeded : Bool) : String → Option RetryStats :=
  fun n =>
    if n = name then
      let prev := (s name).getD ⟨0, 0, none⟩
      some ⟨prev.totalAttempts + 1,
            prev.successfulAttempts + (if succeeded then 1 else 0),
            some now⟩
    else s n

/-- Cap of the bounded global history ring buffer. -/
def MAX_HISTORY : Nat := 100

/-- Modelled from the spec: append one entry to the bounded global
history, discarding the oldest entries beyond the cap. -/
def pushHistory (h : List RetryHistoryEntry) (e : RetryHistoryEntry) :
    List RetryHistoryEntry :=
  let h' := h ++ [e]
  if MAX_HISTORY < h'.length then h'.drop (h'.length - MAX_HISTORY) else h'

/-- Modelled from the spec: `getRetryStats(name)`. -/
def getRetryStats (st : EngineState) (name : String) : Option RetryStats :=
  st.stats name

/-- Modelled from the spec: `getRetryHistory(limit?)` — the global
history, most recent last; with a limit, the most recent `limit`
entries. -/
def getRetryHistory (st : EngineState) (limit : Option Nat) :
    List RetryHistoryEntry :=
  match limit with
  | none => st.history
  | some l => st.history.drop (st.history.length - l)

/-- Modelled from the spec: `getCircuitStats()` — read-only snapshot of
the breaker. -/
def getCircuitStats (st : EngineState) : CircuitBreaker :=
  st.breaker

/-- Modelled from the spec: `getCircuitState()`. -/
def getCircuitState (st : EngineState) : CircuitState :=
  st.breaker.state

/-! ## Error classifier -/

/-- Message patterns the default classifier treats as transient:
connection-refused and connection-reset codes, timeout-family codes, the
literal words "timeout" and "network", and the HTTP status codes
429, 502, 503, 504. -/
def transientPatterns : List String :=
  ["econnrefused", "econnreset", "etimedout", "esockettimedout",
   "timeout", "network", "429", "502", "503", "504"]

/-- Message patterns the default classifier treats as permanent
client-error indicators: HTTP 400, 401, 403 and the words "invalid",
"unauthorized", "forbidden". -/
def permanentPatterns : List String :=
  ["400", "401", "403", "invalid", "unauthorized", "forbidden"]

/-- Modelled from the spec: the default error classifier of the missing
`src/services/rpcRetryService.ts` — case-insensitive pattern matching on
the error message; transient patterns first, then permanent indicators,
defaulting to PERMANENT (fail closed). -/
def defaultClassifier (msg : String) : ErrorType :=
  let m := toLowerStr msg
  if transientPatterns.any (fun p => strContains m p) then
    ErrorType.TRANSIENT
  else if permanentPatterns.any (fun p => strContains m p) then
    ErrorType.PERMANENT
  else
    ErrorType.PERMANENT

/-! ## Backoff calculation -/

/-- Modelled from the spec: the backoff delay scheduled before retry
number `retry` (1-indexed):
`min maxDelayMs (initialDelayMs * backoffMultiplier ^ (retry - 1))`. -/
def computeDelay (rcfg : RetryConfig) (retry : Nat) : ℚ :=
  min rcfg.maxDelayMs (rcfg.initialDelayMs * rcfg.backoffMultiplier ^ (retry - 1))

/-- Modelled from the spec: the actual sleep duration.  With jitter the
sleep is drawn from `[0, computedDelay]`; the draw is modelled as an
explicit factor in `[0, 1]`.  Without jitter the exact computed delay is
used unmodified. -/
def scheduledDelay (rcfg : RetryConfig) (draw : ℚ) (retry : Nat) : ℚ :=
  if rcfg.useJitter then draw * computeDelay rcfg retry
  else computeDelay rcfg retry

/-! ## Retry engine -/

/-- Error message raised when the circuit breaker rejects a call (the
casing matches the repository's unit test, which checks for the
substring "Circuit breaker OPEN"). -/
def circuitOpenMessage (name : String) : String :=
  "Circuit breaker OPEN for " ++ name

/-- Error message raised when all attempts were consumed on transient
errors. -/
def exhaustedMessage (name : String) (n : Nat) (e : String) : String :=
  name ++ (" failed after " ++ ((Nat.repr n ++ " attempts") ++ (": " ++ e)))

/-- Error message raised on a permanent error: the original message
annotated with the operation name. -/
def permanentMessage (name : String) (e : String) : String :=
  name ++ (" failed: " ++ e)

/-- Modelled from the spec: the attempt loop of `executeWithRetry` in the
missing `src/services/rpcRetryService.ts`.  `fuel` is the number of
attempts still allowed, `made` the number of unit-of-work invocations
already made; the unit of work is a function of the 1-indexed attempt
number.  Every failed attempt reports to the breaker and pushes a
history entry; per-name statistics are recorded once, at the call's
final disposition.  Returns the outcome, the total number of
unit-of-work invocations, and the updated engine state. -/
def runAttempts {α : Type} (ccfg : CircuitBreakerConfig) (rcfg : RetryConfig)
    (cls : String → ErrorType) (work : Nat → Except String α)
    (name : String) (now : Nat) :
    Nat → Nat → EngineState → Except String α × Nat × EngineState
  | 0, made, st =>
    (Except.error (exhaustedMessage name rcfg.maxAttempts ""), made, st)
  | Nat.succ fuel, made, st =>
    match work (made + 1) with
    | Except.ok v =>
      (Except.ok v, made + 1,
        ⟨CircuitBreaker.recordSuccess ccfg st.breaker,
         updateStats st.stats name now true,
         pushHistory st.history ⟨name, true, now, made + 1⟩⟩)
    | Except.error e =>
      let br := CircuitBreaker.recordFailure ccfg st.breaker now
      let hist := pushHistory st.history ⟨name, false, now, made + 1⟩
      match cls e with
      | ErrorType.PERMANENT =>
        (Except.error (permanentMessage name e), made + 1,
          ⟨br, updateStats st.stats name now false, hist⟩)
      | ErrorType.TRANSIENT =>
        match fuel with
        | 0 =>
          (Except.error (exhaustedMessage name rcfg.maxAttempts e), made + 1,
            ⟨br, updateStats st.stats name now false, hist⟩)
        | Nat.succ f =>
          runAttempts ccfg rcfg cls work name now (Nat.succ f) (made + 1)
            ⟨br, st.stats, hist⟩

/-- Modelled from the spec: `executeWithRetry(operationName, unitOfWork,
classifier?)` of the missing `src/services/rpcRetryService.ts`.  Checks
the circuit breaker gate once; if open, fails immediately without
invoking the unit of work and without counting an attempt; otherwise
runs up to `maxAttempts` attempts.  The classifier is an explicit
parameter: callers pass `defaultClassifier` or a custom override, which
therefore fully replaces the default for that call. -/
def executeWithRetry {α : Type} (ccfg : CircuitBreakerConfig)
    (rcfg : RetryConfig) (st : EngineState) (now : Nat) (name : String)
    (work : Nat → Except String α) (cls : String → ErrorType) :
    Except String α × Nat × EngineState :=
  let gate := CircuitBreaker.canExecute ccfg st.breaker now
  if gate.1 then
    runAttempts ccfg rcfg cls work name now rcfg.maxAttempts 0
      ⟨gate.2, st.stats, st.history⟩
  else
    (Except.error (circuitOpenMessage name), 0, st)

/-- One always-failing call: operation name, call timestamp, and the
error message its unit of work throws on every invocation. -/
structure FailCall where
  name : String
  time : Nat
  errMsg : String

/-- Run a sequence of always-failing `executeWithRetry` calls on one
engine instance, threading the engine state through. -/
def runFailingCalls (ccfg : CircuitBreakerConfig) (rcfg : RetryConfig)
    (cls : String → ErrorType) :
    List FailCall → EngineState → EngineState
  | [], st => st
  | c :: cs, st =>
    runFailingCalls ccfg rcfg cls cs
      (@executeWithRetry Unit ccfg rcfg st c.time c.name
        (fun _ => Except.error c.errMsg) cls).2.2

/-- The unit of work's result on one invocation is a transient-classified
error. -/
def failsTransient {α : Type} (cls : String → ErrorType)
    (r : Except String α) : Bool :=
  match r with
  | Except.error e =>
    match cls e with
    | ErrorType.TRANSIENT => true
    | ErrorType.PERMANENT => false
  | Except.ok _ => false

/-! ## Helper lemmas -/

lemma isPrefixOfB_append (l r : List Char) : isPrefixOfB l (l ++ r) = true := by
  induction l with
  | nil => rfl
  | cons a as ih => simp [isPrefixOfB, ih]

lemma containsSeq_of_isPrefixOfB {pat l : List Char}
    (h : isPrefixOfB pat l = true) : containsSeq pat l = true := by
  cases l with
  | nil => exact h
  | cons c rest => simp [containsSeq, h]

lemma containsSeq_here (pre pat post : List Char) :
    containsSeq pat (pre ++ (pat ++ post)) = true := by
  induction pre with
  | nil => exact containsSeq_of_isPrefixOfB (isPrefixOfB_append pat post)
  | cons a pre ih => simp [containsSeq, ih]

lemma strContains_left (b c : String) : strContains (b ++ c) b = true := by
  show containsSeq b.data (b ++ c).data = true
  rw [String.data_append]
  have := containsSeq_here [] b.data c.data
  simpa using this

lemma exhaustedMessage_contains_name (name : String) (n : Nat) (e : String) :
    strContains (exhaustedMessage name n e) name = true := by
  unfold exhaustedMessage
  exact strContains_left name _

lemma exhaustedMessage_contains_attempts (name : String) (n : Nat) (e : String) :
    strContains (exhaustedMessage name n e) (Nat.repr n ++ " attempts") = true := by
  show containsSeq (Nat.repr n ++ " attempts").data (exhaustedMessage name n e).data = true
  have hd : (exhaustedMessage name n e).data =
      (name.data ++ " failed after ".data) ++
        ((Nat.repr n ++ " attempts").data ++ (": " ++ e).data) := by
    simp [exhaustedMessage, String.data_append, List.append_assoc]
  rw [hd]
  exact containsSeq_here _ _ _

lemma permanentMessage_contains_error (name e : String) :
    strContains (permanentMessage name e) e = true := by
  show containsSeq e.data (permanentMessage name e).data = true
  have hd : (permanentMessage name e).data =
      (name.data ++ " failed: ".data) ++ (e.data ++ []) := by
    simp [permanentMessage, String.data_append]
  rw [hd]
  exact containsSeq_here _ _ _

lemma circuitOpenMessage_contains_name (name : String) :
    strContains (circuitOpenMessage name) name = true := by
  show containsSeq name.data (circuitOpenMessage name).data = true
  have hd : (circuitOpenMessage name).data =
      "Circuit breaker OPEN for ".data ++ (name.data ++ []) := by
    simp [circuitOpenMessage, String.data_append]
  rw [hd]
  exact containsSeq_here _ _ _

/-! ## Claim C5 — default classifier policy -/

/-- C5: the default error classifier returns TRANSIENT for every error
whose lower-cased message contains one of the transient patterns
(connection-refused / connection-reset / timeout-family codes, the words
"timeout" or "network", or HTTP 429/502/503/504); for messages matching
no transient pattern it returns PERMANENT when a client-error indicator
(400/401/403/"invalid"/"unauthorized"/"forbidden") occurs, and also
PERMANENT when no rule matches at all (fail closed). -/
theorem defaultClassifier_policy (msg : String) :
    ((∃ p ∈ transientPatterns, strContains (toLowerStr msg) p = true) →
      defaultClassifier msg = ErrorType.TRANSIENT) ∧
    ((∀ p ∈ transientPatterns, strContains (toLowerStr msg) p = false) →
      (∃ p ∈ permanentPatterns, strContains (toLowerStr msg) p = true) →
      defaultClassifier msg = ErrorType.PERMANENT) ∧
    ((∀ p ∈ transientPatterns, strContains (toLowerStr msg) p = false) →
      (∀ p ∈ permanentPatterns, strContains (toLowerStr msg) p = false) →
      defaultClassifier msg = ErrorType.PERMANENT) := by
  have hneg : (∀ p ∈ transientPatterns, strContains (toLowerStr msg) p = false) →
      ¬(transientPatterns.any (fun p => strContains (toLowerStr msg) p) = true) := by
    intro h hc
    obtain ⟨p, hp, hfp⟩ := List.any_eq_true.mp hc
    rw [h p hp] at hfp
    cases hfp
  refine ⟨?_, ?_, ?_⟩
  · intro h1
    obtain ⟨p, hp, hfp⟩ := h1
    unfold defaultClassifier
    rw [if_pos (List.any_eq_true.mpr ⟨p, hp, hfp⟩)]
  · intro h1 _
    unfold defaultClassifier
    rw [if_neg (hneg h1), ite_self]
  · intro h1 _
    unfold defaultClassifier
    rw [if_neg (hneg h1), ite_self]

/-- Witness for C5 at concrete messages: a timeout code is transient, a
401 is permanent, and an unknown message defaults to permanent. -/
theorem defaultClassifier_policy_witness :
    defaultClassifier "ETIMEDOUT" = ErrorType.TRANSIENT ∧
    defaultClassifier "401 Unauthorized" = ErrorType.PERMANENT ∧
    defaultClassifier "mystery" = ErrorType.PERMANENT :=
  ⟨(defaultClassifier_policy "ETIMEDOUT").1 ⟨"etimedout", by decide, by decide⟩,
   (defaultClassifier_policy "401 Unauthorized").2.1 (by decide)
     ⟨"401", by decide, by decide⟩,
   (defaultClassifier_policy "mystery").2.2 (by decide) (by decide)⟩

/-! ## Claim C7 — backoff delay formula, monotonicity, cap -/

/-- C7: with `useJitter = false` the delay scheduled before retry `r`
(1-indexed) is exactly `min maxDelayMs (initialDelayMs *
backoffMultiplier ^ (r-1))`; with `backoffMultiplier ≥ 1` (and a
non-negative base delay, a configuration invariant) the delays are
monotonically non-decreasing in `r`, and every delay is bounded by
`maxDelayMs`. -/
theorem backoffDelay_formula_monotone_capped (rcfg : RetryConfig)
    (draw : ℚ) (r : Nat)
    (hj : rcfg.useJitter = false)
    (hm : 1 ≤ rcfg.backoffMultiplier)
    (hi : 0 ≤ rcfg.initialDelayMs)
    (hr : 1 ≤ r) :
    scheduledDelay rcfg draw r =
      min rcfg.maxDelayMs (rcfg.initialDelayMs * rcfg.backoffMultiplier ^ (r - 1)) ∧
    scheduledDelay rcfg draw r ≤ scheduledDelay rcfg draw (r + 1) ∧
    scheduledDelay rcfg draw r ≤ rcfg.maxDelayMs := by
  have hd : ∀ q, scheduledDelay rcfg draw q = computeDelay rcfg q := by
    intro q; simp [scheduledDelay, hj]
  refine ⟨by rw [hd]; rfl, ?_, ?_⟩
  · rw [hd, hd]
    unfold computeDelay
    refine min_le_min le_rfl ?_
    refine mul_le_mul_of_nonneg_left ?_ hi
    exact pow_le_pow_right₀ hm (by omega)
  · rw [hd]
    exact min_le_left _ _

/-- Witness for C7 at the concrete configuration of the repository's
backoff test (`initialDelayMs 50`, `maxDelayMs 5000`, multiplier 2, no
jitter), for the first scheduled retry. -/
theorem backoffDelay_witness :
    scheduledDelay ⟨3, 50, 5000, 2, false, none⟩ 0 1 =
      min (5000 : ℚ) (50 * 2 ^ (1 - 1)) ∧
    scheduledDelay ⟨3, 50, 5000, 2, false, none⟩ 0 1 ≤
      scheduledDelay ⟨3, 50, 5000, 2, false, none⟩ 0 2 ∧
    scheduledDelay ⟨3, 50, 5000, 2, false, none⟩ 0 1 ≤ (5000 : ℚ) :=
  backoffDelay_formula_monotone_capped ⟨3, 50, 5000, 2, false, none⟩ 0 1
    rfl (by norm_num) (by norm_num) (by norm_num)

/-! ## Engine-level helper lemmas -/

lemma failsTransient_spec {α : Type} {cls : String → ErrorType}
    {r : Except String α} (h : failsTransient cls r = true) :
    ∃ e, r = Except.error e ∧ cls e = ErrorType.TRANSIENT := by
  cases r with
  | ok v => simp [failsTransient] at h
  | error e =>
    cases hc : cls e with
    | TRANSIENT => exact ⟨e, rfl, hc⟩
    | PERMANENT => simp [failsTransient, hc] at h

lemma canExecute_of_closed (ccfg : CircuitBreakerConfig)
    {cb : CircuitBreaker} (now : Nat)
    (hcl : cb.state = CircuitState.CLOSED) :
    CircuitBreaker.canExecute ccfg cb now = (true, cb) := by
  unfold CircuitBreaker.canExecute
  simp [hcl]

lemma executeWithRetry_of_closed {α : Type} (ccfg : CircuitBreakerConfig)
    (rcfg : RetryConfig) (st : EngineState) (now : Nat) (name : String)
    (work : Nat → Except String α) (cls : String → ErrorType)
    (hcl : st.breaker.state = CircuitState.CLOSED) :
    executeWithRetry ccfg rcfg st now name work cls =
      runAttempts ccfg rcfg cls work name now rcfg.maxAttempts 0 st := by
  simp only [executeWithRetry, canExecute_of_closed ccfg now hcl]
  rfl

lemma runAttempts_ok {α : Type} (ccfg : CircuitBreakerConfig)
    (rcfg : RetryConfig) (cls : String → ErrorType)
    (work : Nat → Except String α) (name : String) (now : Nat)
    (fuel made : Nat) (st : EngineState) {v : α}
    (hw : work (made + 1) = Except.ok v) :
    runAttempts ccfg rcfg cls work name now (Nat.succ fuel) made st =
      (Except.ok v, made + 1,
        ⟨CircuitBreaker.recordSuccess ccfg st.breaker,
         updateStats st.stats name now true,
         pushHistory st.history ⟨name, true, now, made + 1⟩⟩) := by
  simp only [runAttempts, hw]

lemma runAttempts_permanent {α : Type} (ccfg : CircuitBreakerConfig)
    (rcfg : RetryConfig) (cls : String → ErrorType)
    (work : Nat → Except String α) (name : String) (now : Nat)
    (fuel made : Nat) (st : EngineState) {e : String}
    (hw : work (made + 1) = Except.error e)
    (hc : cls e = ErrorType.PERMANENT) :
    runAttempts ccfg rcfg cls work name now (Nat.succ fuel) made st =
      (Except.error (permanentMessage name e), made + 1,
        ⟨CircuitBreaker.recordFailure ccfg st.breaker now,
         updateStats st.stats name now false,
         pushHistory st.history ⟨name, false, now, made + 1⟩⟩) := by
  simp only [runAttempts, hw, hc]

lemma runAttempts_last_transient {α : Type} (ccfg : CircuitBreakerConfig)
    (rcfg : RetryConfig) (cls : String → ErrorType)
    (work : Nat → Except String α) (name : String) (now : Nat)
    (made : Nat) (st : EngineState) {e : String}
    (hw : work (made + 1) = Except.error e)
    (hc : cls e = ErrorType.TRANSIENT) :
    runAttempts ccfg rcfg cls work name now (Nat.succ 0) made st =
      (Except.error (exhaustedMessage name rcfg.maxAttempts e), made + 1,
        ⟨CircuitBreaker.recordFailure ccfg st.breaker now,
         updateStats st.stats name now false,
         pushHistory st.history ⟨name, false, now, made + 1⟩⟩) := by
  simp only [runAttempts, hw, hc]

lemma runAttempts_step_transient {α : Type} (ccfg : CircuitBreakerConfig)
    (rcfg : RetryConfig) (cls : String → ErrorType)
    (work : Nat → Except String α) (name : String) (now : Nat)
    (fuel made : Nat) (st : EngineState) {e : String}
    (hw : work (made + 1) = Except.error e)
    (hc : cls e = ErrorType.TRANSIENT) :
    runAttempts ccfg rcfg cls work name now (Nat.succ (Nat.succ fuel)) made st =
      runAttempts ccfg rcfg cls work name now (Nat.succ fuel) (made + 1)
        ⟨CircuitBreaker.recordFailure ccfg st.breaker now, st.stats,
         pushHistory st.history ⟨name, false, now, made + 1⟩⟩ := by
  conv_lhs => rw [runAttempts]
  rw [hw]
  simp only [hc]

lemma runAttempts_all_transient {α : Type} (ccfg : CircuitBreakerConfig)
    (rcfg : RetryConfig) (cls : String → ErrorType)
    (work : Nat → Except String α) (name : String) (now : Nat) :
    ∀ (fuel made : Nat) (st : EngineState), 1 ≤ fuel →
      (∀ i, made + 1 ≤ i → i ≤ made + fuel → failsTransient cls (work i) = true) →
      ∃ e br hist, work (made + fuel) = Except.error e ∧
        runAttempts ccfg rcfg cls work name now fuel made st =
          (Except.error (exhaustedMessage name rcfg.maxAttempts e),
           made + fuel,
           ⟨br, updateStats st.stats name now false, hist⟩) := by
  intro fuel
  induction fuel with
  | zero => intro made st h; omega
  | succ f ih =>
    intro made st _ hw
    have h1 : failsTransient cls (work (made + 1)) = true :=
      hw (made + 1) (by omega) (by omega)
    obtain ⟨e1, he1, hc1⟩ := failsTransient_spec h1
    cases f with
    | zero =>
      exact ⟨e1, _, _, he1, runAttempts_last_transient ccfg rcfg cls work name
        now made st he1 hc1⟩
    | succ f' =>
      obtain ⟨e, br, hist, hwork, hrun⟩ :=
        ih (made + 1)
          ⟨CircuitBreaker.recordFailure ccfg st.breaker now, st.stats,
           pushHistory st.history ⟨name, false, now, made + 1⟩⟩
          (by omega) (fun i hi1 hi2 => hw i (by omega) (by omega))
      refine ⟨e, br, hist, ?_, ?_⟩
      · have harit : made + 1 + (f' + 1) = made + (f' + 1 + 1) := by omega
        rw [harit] at hwork
        exact hwork
      · rw [runAttempts_step_transient ccfg rcfg cls work name now f' made st
          he1 hc1, hrun]
        have harit : made + 1 + (f' + 1) = made + (f' + 1 + 1) := by omega
        rw [harit]

lemma runAttempts_succeeds {α : Type} (ccfg : CircuitBreakerConfig)
    (rcfg : RetryConfig) (cls : String → ErrorType)
    (work : Nat → Except String α) (name : String) (now : Nat) (v : α) :
    ∀ (j fuel made : Nat) (st : EngineState), 1 ≤ j → j ≤ fuel →
      (∀ i, made + 1 ≤ i → i < made + j → failsTransient cls (work i) = true) →
      work (made + j) = Except.ok v →
      ∃ br hist,
        runAttempts ccfg rcfg cls work name now fuel made st =
          (Except.ok v, made + j,
            ⟨br, updateStats st.stats name now true,
             pushHistory hist ⟨name, true, now, made + j⟩⟩) := by
  intro j
  induction j with
  | zero => intro fuel made st h; omega
  | succ j' ih =>
    intro fuel made st _ hjf hfail hok
    cases fuel with
    | zero => omega
    | succ f =>
      cases j' with
      | zero =>
        refine ⟨CircuitBreaker.recordSuccess ccfg st.breaker, st.history, ?_⟩
        exact runAttempts_ok ccfg rcfg cls work name now f made st hok
      | succ j'' =>
        have h1 : failsTransient cls (work (made + 1)) = true :=
          hfail (made + 1) (by omega) (by omega)
        obtain ⟨e1, he1, hc1⟩ := failsTransient_spec h1
        cases f with
        | zero => omega
        | succ f' =>
          have harit : made + 1 + (j'' + 1) = made + (j'' + 1 + 1) := by omega
          obtain ⟨br, hist, hrun⟩ :=
            ih (Nat.succ f') (made + 1)
              ⟨CircuitBreaker.recordFailure ccfg st.breaker now, st.stats,
               pushHistory st.history ⟨name, false, now, made + 1⟩⟩
              (by omega) (by omega)
              (fun i hi1 hi2 => hfail i (by omega) (by omega))
              (by rw [harit]; exact hok)
          refine ⟨br, hist, ?_⟩
          rw [runAttempts_step_transient ccfg rcfg cls work name now f' made st
            he1 hc1, hrun, harit]

lemma executeWithRetry_fail_once {α : Type} (ccfg : CircuitBreakerConfig)
    (rcfg : RetryConfig) (cls : String → ErrorType) (st : EngineState)
    (t : Nat) (n e : String)
    (hmax : rcfg.maxAttempts = 1)
    (hcl : st.breaker.state = CircuitState.CLOSED) :
    (@executeWithRetry α ccfg rcfg st t n (fun _ => Except.error e) cls).2.2 =
      ⟨CircuitBreaker.recordFailure ccfg st.breaker t,
       updateStats st.stats n t false,
       pushHistory st.history ⟨n, false, t, 1⟩⟩ := by
  rw [executeWithRetry_of_closed ccfg rcfg st t n (fun _ => Except.error e)
    cls hcl, hmax]
  cases hc : cls e with
  | PERMANENT =>
    rw [show (1 : Nat) = Nat.succ 0 from rfl,
      runAttempts_permanent ccfg rcfg cls (fun _ => Except.error e) n t 0 0 st
        rfl hc]
  | TRANSIENT =>
    rw [show (1 : Nat) = Nat.succ 0 from rfl,
      runAttempts_last_transient ccfg rcfg cls (fun _ => Except.error e) n t 0
        st rfl hc]

lemma recordFailure_stays_closed (ccfg : CircuitBreakerConfig)
    (cb : CircuitBreaker) (t : Nat)
    (hcl : cb.state = CircuitState.CLOSED)
    (h1 : cb.consecutiveFailures + 1 < ccfg.consecutiveFailuresThreshold)
    (h2 : cb.totalFailures + 1 < ccfg.failureThreshold) :
    CircuitBreaker.recordFailure ccfg cb t =
      ⟨CircuitState.CLOSED, cb.consecutiveFailures + 1, cb.totalFailures + 1,
       cb.successCount, some t⟩ := by
  have hcond : ¬(cb.state = CircuitState.HALF_OPEN ∨
      ccfg.consecutiveFailuresThreshold ≤ cb.consecutiveFailures + 1 ∨
      ccfg.failureThreshold ≤ cb.totalFailures + 1) := by
    push_neg
    exact ⟨by simp [hcl], by omega, by omega⟩
  simp only [CircuitBreaker.recordFailure]
  rw [if_neg hcond, hcl]

lemma recordFailure_opens (ccfg : CircuitBreakerConfig)
    (cb : CircuitBreaker) (t : Nat)
    (h1 : ccfg.consecutiveFailuresThreshold ≤ cb.consecutiveFailures + 1) :
    CircuitBreaker.recordFailure ccfg cb t =
      ⟨CircuitState.OPEN, cb.consecutiveFailures + 1, cb.totalFailures + 1,
       cb.successCount, some t⟩ := by
  simp only [CircuitBreaker.recordFailure]
  rw [if_pos (Or.inr (Or.inl h1))]

lemma recordSuccess_closed (ccfg : CircuitBreakerConfig) (cb : CircuitBreaker)
    (hcl : cb.state = CircuitState.CLOSED) :
    CircuitBreaker.recordSuccess ccfg cb =
      ⟨CircuitState.CLOSED, 0, cb.totalFailures, cb.successCount + 1,
       cb.lastFailureTime⟩ := by
  simp only [CircuitBreaker.recordSuccess]
  rw [if_neg (by simp [hcl]), hcl]

lemma executeWithRetry_rejected {α : Type} (ccfg : CircuitBreakerConfig)
    (rcfg : RetryConfig) (st : EngineState) (t' : Nat) (n : String)
    (work : Nat → Except String α) (cls : String → ErrorType) (tl : Nat)
    (hst : st.breaker.state = CircuitState.OPEN)
    (htl : st.breaker.lastFailureTime = some tl)
    (ht : t' < tl + ccfg.resetTimeout) :
    executeWithRetry ccfg rcfg st t' n work cls =
      (Except.error (circuitOpenMessage n), 0, st) := by
  have hgate : CircuitBreaker.canExecute ccfg st.breaker t' =
      (false, st.breaker) := by
    simp only [CircuitBreaker.canExecute, hst, htl]
    rw [if_pos trivial, if_neg (by omega)]
  simp only [executeWithRetry, hgate]
  rfl

lemma runFailingCalls_append (ccfg : CircuitBreakerConfig)
    (rcfg : RetryConfig) (cls : String → ErrorType) :
    ∀ (l₁ l₂ : List FailCall) (st : EngineState),
      runFailingCalls ccfg rcfg cls (l₁ ++ l₂) st =
        runFailingCalls ccfg rcfg cls l₂ (runFailingCalls ccfg rcfg cls l₁ st) := by
  intro l₁
  induction l₁ with
  | nil => intro l₂ st; rfl
  | cons c cs ih =>
    intro l₂ st
    rw [List.cons_append, runFailingCalls, runFailingCalls]
    exact ih l₂ _

lemma runFailingCalls_stays_closed (ccfg : CircuitBreakerConfig)
    (rcfg : RetryConfig) (cls : String → ErrorType)
    (hmax : rcfg.maxAttempts = 1) :
    ∀ (calls : List FailCall) (st : EngineState),
      st.breaker.state = CircuitState.CLOSED →
      st.breaker.consecutiveFailures + calls.length <
        ccfg.consecutiveFailuresThreshold →
      st.breaker.totalFailures + calls.length < ccfg.failureThreshold →
      (runFailingCalls ccfg rcfg cls calls st).breaker.state =
        CircuitState.CLOSED ∧
      (runFailingCalls ccfg rcfg cls calls st).breaker.consecutiveFailures =
        st.breaker.consecutiveFailures + calls.length ∧
      (runFailingCalls ccfg rcfg cls calls st).breaker.totalFailures =
        st.breaker.totalFailures + calls.length := by
  intro calls
  induction calls with
  | nil =>
    intro st h1 h2 h3
    exact ⟨h1, by simp [runFailingCalls], by simp [runFailingCalls]⟩
  | cons c cs ih =>
    intro st h1 h2 h3
    rw [List.length_cons] at h2 h3
    rw [runFailingCalls,
      @executeWithRetry_fail_once Unit ccfg rcfg cls st c.time c.name c.errMsg
        hmax h1,
      recordFailure_stays_closed ccfg st.breaker c.time h1 (by omega) (by omega)]
    have hres := ih
      ⟨⟨CircuitState.CLOSED, st.breaker.consecutiveFailures + 1,
        st.breaker.totalFailures + 1, st.breaker.successCount, some c.time⟩,
       updateStats st.stats c.name c.time false,
       pushHistory st.history ⟨c.name, false, c.time, 1⟩⟩
      rfl (by show st.breaker.consecutiveFailures + 1 + cs.length < _; omega)
      (by show st.breaker.totalFailures + 1 + cs.length < _; omega)
    refine ⟨hres.1, ?_, ?_⟩
    · rw [hres.2.1, List.length_cons]
      show st.breaker.consecutiveFailures + 1 + cs.length = _
      omega
    · rw [hres.2.2, List.length_cons]
      show st.breaker.totalFailures + 1 + cs.length = _
      omega

lemma pushHistory_suffix (h : List RetryHistoryEntry) (e : RetryHistoryEntry) :
    ∃ pre, pushHistory h e = pre ++ [e] := by
  simp only [pushHistory]
  by_cases hl : MAX_HISTORY < (h ++ [e]).length
  · rw [if_pos hl]
    refine ⟨h.drop ((h ++ [e]).length - MAX_HISTORY), ?_⟩
    have hM : MAX_HISTORY = 100 := rfl
    rw [List.drop_append_of_le_length
      (by simp only [List.length_append, List.length_cons, List.length_nil] at hl ⊢; omega)]
  · rw [if_neg hl]
    exact ⟨h, rfl⟩

/-! ## Claim C2 — circuit opens after consecutive failures and rejects -/

/-- C2: starting from a fresh engine, after `consecutiveFailuresThreshold`
consecutive failed calls (each with `maxAttempts = 1`, under any
operation names and timestamps), the circuit breaker is OPEN; and every
subsequent call made before `resetTimeout` has elapsed since the last
failure fails immediately with the "circuit breaker open for
`<operationName>`" error, without invoking the unit of work, without
counting an attempt (0 invocations), and without changing the engine
state. -/
theorem circuitBreaker_opens_and_rejects (ccfg : CircuitBreakerConfig)
    (rcfg : RetryConfig) (cls : String → ErrorType) (calls : List FailCall)
    (hmax : rcfg.maxAttempts = 1)
    (hT1 : 1 ≤ ccfg.consecutiveFailuresThreshold)
    (hTF : ccfg.consecutiveFailuresThreshold ≤ ccfg.failureThreshold)
    (hlen : calls.length = ccfg.consecutiveFailuresThreshold) :
    (runFailingCalls ccfg rcfg cls calls EngineState.initial).breaker.state =
      CircuitState.OPEN ∧
    ∃ tl, (runFailingCalls ccfg rcfg cls calls
        EngineState.initial).breaker.lastFailureTime = some tl ∧
      ∀ (α : Type) (name' : String) (work : Nat → Except String α)
        (cls' : String → ErrorType) (t' : Nat),
        t' < tl + ccfg.resetTimeout →
        executeWithRetry ccfg rcfg
            (runFailingCalls ccfg rcfg cls calls EngineState.initial)
            t' name' work cls' =
          (Except.error (circuitOpenMessage name'), 0,
           runFailingCalls ccfg rcfg cls calls EngineState.initial) ∧
        strContains (circuitOpenMessage name') name' = true := by
  obtain ⟨cs, c, rfl⟩ : ∃ cs c, calls = cs ++ [c] := by
    rcases List.eq_nil_or_concat' calls with h | ⟨L, b, h⟩
    · rw [h] at hlen; simp at hlen; omega
    · exact ⟨L, b, h⟩
  have hcs : cs.length + 1 = ccfg.consecutiveFailuresThreshold := by
    simpa using hlen
  rw [runFailingCalls_append]
  have hinv := runFailingCalls_stays_closed ccfg rcfg cls hmax cs
    EngineState.initial rfl
    (by show 0 + cs.length < _; omega)
    (by show 0 + cs.length < _; omega)
  have hfinal : runFailingCalls ccfg rcfg cls [c]
      (runFailingCalls ccfg rcfg cls cs EngineState.initial) =
      ⟨CircuitBreaker.recordFailure ccfg
         (runFailingCalls ccfg rcfg cls cs EngineState.initial).breaker c.time,
       updateStats
         (runFailingCalls ccfg rcfg cls cs EngineState.initial).stats
         c.name c.time false,
       pushHistory
         (runFailingCalls ccfg rcfg cls cs EngineState.initial).history
         ⟨c.name, false, c.time, 1⟩⟩ :=
    @executeWithRetry_fail_once Unit ccfg rcfg cls
      (runFailingCalls ccfg rcfg cls cs EngineState.initial) c.time c.name
      c.errMsg hmax hinv.1
  rw [hfinal,
    recordFailure_opens ccfg
      (runFailingCalls ccfg rcfg cls cs EngineState.initial).breaker c.time
      (by rw [hinv.2.1]; show _ ≤ 0 + cs.length + 1; omega)]
  refine ⟨rfl, c.time, rfl, ?_⟩
  intro α name' work cls' t' ht
  exact ⟨executeWithRetry_rejected ccfg rcfg _ t' name' work cls' c.time rfl
    rfl ht, circuitOpenMessage_contains_name name'⟩

/-- Witness for C2: the repository scenario — threshold 3, three failing
calls with `maxAttempts = 1` open the circuit, and a later call at time
100 (before the 500 ms reset timeout) is rejected with 0 invocations. -/
theorem circuitBreaker_opens_and_rejects_witness :
    (runFailingCalls ⟨5, 3, 500, 2⟩ ⟨1, 10, 50, 2, false, none⟩
      defaultClassifier
      [⟨"fail-0", 0, "ECONNREFUSED"⟩, ⟨"fail-1", 0, "ECONNREFUSED"⟩,
       ⟨"fail-2", 0, "ECONNREFUSED"⟩]
      EngineState.initial).breaker.state = CircuitState.OPEN ∧
    (@executeWithRetry String ⟨5, 3, 500, 2⟩ ⟨1, 10, 50, 2, false, none⟩
      (runFailingCalls ⟨5, 3, 500, 2⟩ ⟨1, 10, 50, 2, false, none⟩
        defaultClassifier
        [⟨"fail-0", 0, "ECONNREFUSED"⟩, ⟨"fail-1", 0, "ECONNREFUSED"⟩,
         ⟨"fail-2", 0, "ECONNREFUSED"⟩]
        EngineState.initial)
      100 "blocked-op" (fun _ => Except.ok "nope") defaultClassifier).2.1 = 0 := by
  obtain ⟨h1, tl, htl, hrej⟩ :=
    circuitBreaker_opens_and_rejects ⟨5, 3, 500, 2⟩ ⟨1, 10, 50, 2, false, none⟩
      defaultClassifier
      [⟨"fail-0", 0, "ECONNREFUSED"⟩, ⟨"fail-1", 0, "ECONNREFUSED"⟩,
       ⟨"fail-2", 0, "ECONNREFUSED"⟩]
      rfl (by decide) (by decide) rfl
  have hconc : (runFailingCalls ⟨5, 3, 500, 2⟩ ⟨1, 10, 50, 2, false, none⟩
      defaultClassifier
      [⟨"fail-0", 0, "ECONNREFUSED"⟩, ⟨"fail-1", 0, "ECONNREFUSED"⟩,
       ⟨"fail-2", 0, "ECONNREFUSED"⟩]
      EngineState.initial).breaker.lastFailureTime = some 0 := by decide
  rw [hconc] at htl
  have htl0 : tl = 0 := (Option.some.inj htl).symm
  subst htl0
  have h2 := hrej String "blocked-op" (fun _ => Except.ok "nope")
    defaultClassifier 100 (by decide)
  exact ⟨h1, by rw [h2.1]⟩

/-! ## Claim C1 — retry exhaustion -/

/-- C1: for any configuration with `maxAttempts = N ≥ 1` and a unit of
work that throws a transient-classified error on every invocation,
`executeWithRetry` (entered with a CLOSED breaker) invokes the unit of
work exactly N times and fails with an error whose message contains the
operation name and the phrase `"<N> attempts"`. -/
theorem executeWithRetry_exhausts_all_attempts {α : Type}
    (ccfg : CircuitBreakerConfig) (rcfg : RetryConfig)
    (cls : String → ErrorType) (st : EngineState) (now : Nat)
    (name : String) (work : Nat → Except String α)
    (hN : 1 ≤ rcfg.maxAttempts)
    (hcl : st.breaker.state = CircuitState.CLOSED)
    (hw : ∀ i, i ≤ rcfg.maxAttempts → 1 ≤ i → failsTransient cls (work i) = true) :
    ∃ msg st',
      executeWithRetry ccfg rcfg st now name work cls =
        (Except.error msg, rcfg.maxAttempts, st') ∧
      strContains msg name = true ∧
      strContains msg (Nat.repr rcfg.maxAttempts ++ " attempts") = true := by
  rw [executeWithRetry_of_closed ccfg rcfg st now name work cls hcl]
  obtain ⟨e, br, hist, hwork, hrun⟩ :=
    runAttempts_all_transient ccfg rcfg cls work name now rcfg.maxAttempts 0 st
      hN (fun i hi1 hi2 => hw i (by omega) (by omega))
  exact ⟨exhaustedMessage name rcfg.maxAttempts e,
    ⟨br, updateStats st.stats name now false, hist⟩, by simpa using hrun,
    exhaustedMessage_contains_name name rcfg.maxAttempts e,
    exhaustedMessage_contains_attempts name rcfg.maxAttempts e⟩

/-- Witness for C1: the repository test scenario — `maxAttempts = 3`,
every invocation throws `ETIMEDOUT` — makes exactly 3 invocations. -/
theorem executeWithRetry_exhausts_all_attempts_witness :
    (@executeWithRetry String ⟨5, 3, 500, 2⟩ ⟨3, 10, 50, 2, false, none⟩
        EngineState.initial 0 "failing-op"
        (fun _ => Except.error "ETIMEDOUT") defaultClassifier).2.1 = 3 := by
  obtain ⟨msg, st', heq, h1, h2⟩ :=
    @executeWithRetry_exhausts_all_attempts String ⟨5, 3, 500, 2⟩
      ⟨3, 10, 50, 2, false, none⟩ defaultClassifier EngineState.initial 0
      "failing-op" (fun _ => Except.error "ETIMEDOUT")
      (by decide) rfl (fun i h1 h2 => by interval_cases i <;> decide)
  rw [heq]

/-! ## Claim C3 — permanent errors are never retried -/

/-- C3: a unit of work whose first invocation throws a
PERMANENT-classified error makes exactly one invocation, regardless of
`maxAttempts`, and the raised error preserves the original error's
message. -/
theorem permanentError_stops_after_one_attempt {α : Type}
    (ccfg : CircuitBreakerConfig) (rcfg : RetryConfig)
    (cls : String → ErrorType) (st : EngineState) (now : Nat)
    (name : String) (work : Nat → Except String α) (e : String)
    (hN : 1 ≤ rcfg.maxAttempts)
    (hcl : st.breaker.state = CircuitState.CLOSED)
    (hw : work 1 = Except.error e)
    (hc : cls e = ErrorType.PERMANENT) :
    ∃ st', executeWithRetry ccfg rcfg st now name work cls =
        (Except.error (permanentMessage name e), 1, st') ∧
      strContains (permanentMessage name e) e = true := by
  rw [executeWithRetry_of_closed ccfg rcfg st now name work cls hcl]
  obtain ⟨m, hm⟩ : ∃ m, rcfg.maxAttempts = Nat.succ m :=
    ⟨rcfg.maxAttempts - 1, by omega⟩
  rw [hm]
  exact ⟨_, runAttempts_permanent ccfg rcfg cls work name now m 0 st hw hc,
    permanentMessage_contains_error name e⟩

/-- Witness for C3: a `401 Unauthorized` failure with `maxAttempts = 3`
makes exactly one invocation. -/
theorem permanentError_stops_after_one_attempt_witness :
    (@executeWithRetry String ⟨5, 3, 500, 2⟩ ⟨3, 10, 50, 2, false, none⟩
        EngineState.initial 0 "perm-op"
        (fun _ => Except.error "401 Unauthorized") defaultClassifier).2.1 = 1 := by
  obtain ⟨st', heq, h1⟩ :=
    permanentError_stops_after_one_attempt ⟨5, 3, 500, 2⟩
      ⟨3, 10, 50, 2, false, none⟩ defaultClassifier EngineState.initial 0
      "perm-op" (fun _ => Except.error "401 Unauthorized") "401 Unauthorized"
      (by decide) rfl rfl (by decide)
  rw [heq]

/-! ## Claim C4 — success after transient failures -/

/-- C4: a unit of work that throws transient-classified errors on
invocations `1..k-1` and returns `v` on invocation `k ≤ maxAttempts`
produces the value `v` with exactly `k` invocations. -/
theorem success_after_transient_failures {α : Type}
    (ccfg : CircuitBreakerConfig) (rcfg : RetryConfig)
    (cls : String → ErrorType) (st : EngineState) (now : Nat)
    (name : String) (work : Nat → Except String α) (v : α) (k : Nat)
    (hk1 : 1 ≤ k) (hkN : k ≤ rcfg.maxAttempts)
    (hcl : st.breaker.state = CircuitState.CLOSED)
    (hfail : ∀ i, i < k → 1 ≤ i → failsTransient cls (work i) = true)
    (hok : work k = Except.ok v) :
    ∃ st', executeWithRetry ccfg rcfg st now name work cls =
      (Except.ok v, k, st') := by
  rw [executeWithRetry_of_closed ccfg rcfg st now name work cls hcl]
  obtain ⟨br, hist, hrun⟩ :=
    runAttempts_succeeds ccfg rcfg cls work name now v k rcfg.maxAttempts 0 st
      hk1 hkN (fun i hi1 hi2 => hfail i (by omega) (by omega))
      (by simpa using hok)
  exact ⟨_, by simpa using hrun⟩

/-- Witness for C4: the repository test scenario — two `ECONNREFUSED`
failures then `"recovered"` on the third invocation, `maxAttempts = 3`. -/
theorem success_after_transient_failures_witness :
    ∃ st', @executeWithRetry String ⟨5, 3, 500, 2⟩ ⟨3, 10, 50, 2, false, none⟩
        EngineState.initial 0 "test-op"
        (fun i => if i < 3 then Except.error "ECONNREFUSED" else Except.ok "recovered")
        defaultClassifier = (Except.ok "recovered", 3, st') :=
  @success_after_transient_failures String ⟨5, 3, 500, 2⟩ ⟨3, 10, 50, 2, false, none⟩
    defaultClassifier EngineState.initial 0 "test-op"
    (fun i => if i < 3 then Except.error "ECONNREFUSED" else Except.ok "recovered")
    "recovered" 3 (by decide) (by decide) rfl
    (fun i h1 h2 => by interval_cases i <;> decide) rfl

/-! ## Claim C6 — custom classifier fully overrides the default -/

/-- C6: a classifier passed to `executeWithRetry` replaces the default
classification for that call: with an always-PERMANENT classifier, any
error — including one matching the default transient patterns — stops
the call after exactly one invocation of the unit of work. -/
theorem customClassifier_fully_overrides {α : Type}
    (ccfg : CircuitBreakerConfig) (rcfg : RetryConfig) (st : EngineState)
    (now : Nat) (name : String) (work : Nat → Except String α) (e : String)
    (hN : 1 ≤ rcfg.maxAttempts)
    (hcl : st.breaker.state = CircuitState.CLOSED)
    (hw : work 1 = Except.error e) :
    ∃ st', executeWithRetry ccfg rcfg st now name work
        (fun _ => ErrorType.PERMANENT) =
      (Except.error (permanentMessage name e), 1, st') := by
  rw [executeWithRetry_of_closed ccfg rcfg st now name work
    (fun _ => ErrorType.PERMANENT) hcl]
  obtain ⟨m, hm⟩ : ∃ m, rcfg.maxAttempts = Nat.succ m :=
    ⟨rcfg.maxAttempts - 1, by omega⟩
  rw [hm]
  exact ⟨_, runAttempts_permanent ccfg rcfg
    (fun _ => ErrorType.PERMANENT) work name now m 0 st hw rfl⟩

/-- Witness for C6: an `ECONNREFUSED` error — transient under the
default rules — is stopped after one invocation by an always-PERMANENT
classifier. -/
theorem customClassifier_fully_overrides_witness :
    (@executeWithRetry String ⟨5, 3, 500, 2⟩ ⟨3, 10, 50, 2, false, none⟩
        EngineState.initial 0 "custom-op"
        (fun _ => Except.error "ECONNREFUSED")
        (fun _ => ErrorType.PERMANENT)).2.1 = 1 := by
  obtain ⟨st', heq⟩ :=
    customClassifier_fully_overrides ⟨5, 3, 500, 2⟩ ⟨3, 10, 50, 2, false, none⟩
      EngineState.initial 0 "custom-op" (fun _ => Except.error "ECONNREFUSED")
      "ECONNREFUSED" (by decide) rfl rfl
  rw [heq]

/-! ## Claim C8 — statistics are recorded once per completed call -/

/-- C8 (counterexample to the claim as stated): in the repository's own
test scenario — `maxAttempts = 2`, first invocation throws the transient
`ECONNREFUSED`, second invocation succeeds — the call makes 2 unit-of-work
invocations, yet `getRetryStats` reports `totalAttempts = 1`, not 2: the
per-name counter does not increase by the number of invocations. -/
theorem retryStats_totalAttempts_cex :
    (@executeWithRetry String ⟨5, 3, 500, 2⟩ ⟨2, 10, 50, 2, false, none⟩
      EngineState.initial 0 "stats-fail"
      (fun i => if i < 2 then Except.error "ECONNREFUSED" else Except.ok "ok")
      defaultClassifier).2.1 = 2 ∧
    (getRetryStats (@executeWithRetry String ⟨5, 3, 500, 2⟩
        ⟨2, 10, 50, 2, false, none⟩ EngineState.initial 0 "stats-fail"
        (fun i => if i < 2 then Except.error "ECONNREFUSED" else Except.ok "ok")
        defaultClassifier).2.2 "stats-fail").map RetryStats.totalAttempts =
      some 1 ∧
    ¬ (getRetryStats (@executeWithRetry String ⟨5, 3, 500, 2⟩
        ⟨2, 10, 50, 2, false, none⟩ EngineState.initial 0 "stats-fail"
        (fun i => if i < 2 then Except.error "ECONNREFUSED" else Except.ok "ok")
        defaultClassifier).2.2 "stats-fail").map RetryStats.totalAttempts =
      some 2 :=
  ⟨by decide, by decide, by decide⟩

/-- C8 (amended): statistics are recorded once per completed call, at its
final disposition, whatever that disposition is — the per-name
`totalAttempts` increases by exactly 1 per completed call (not by the
number of unit-of-work invocations), `successfulAttempts` by 1 exactly
when the call succeeds, and `lastAttemptTime` is set to the call's
timestamp.  The three conjuncts cover the three completed dispositions:
success on invocation `k ≤ maxAttempts` after transient failures, a
permanent error on the first invocation, and exhaustion of all attempts
on transient errors.  In particular a first call that succeeds
immediately reports `totalAttempts = 1`, `successfulAttempts = 1` and a
non-null `lastAttemptTime`. -/
theorem retryStats_recorded_per_call {α : Type}
    (ccfg : CircuitBreakerConfig) (rcfg : RetryConfig)
    (cls : String → ErrorType) (st : EngineState) (now : Nat)
    (name : String)
    (hN : 1 ≤ rcfg.maxAttempts)
    (hcl : st.breaker.state = CircuitState.CLOSED) :
    (∀ (work : Nat → Except String α) (v : α) (k : Nat), 1 ≤ k →
      k ≤ rcfg.maxAttempts →
      (∀ i, i < k → 1 ≤ i → failsTransient cls (work i) = true) →
      work k = Except.ok v →
      ∃ st', executeWithRetry ccfg rcfg st now name work cls =
          (Except.ok v, k, st') ∧
        getRetryStats st' name = some
          ⟨((getRetryStats st name).getD ⟨0, 0, none⟩).totalAttempts + 1,
           ((getRetryStats st name).getD ⟨0, 0, none⟩).successfulAttempts + 1,
           some now⟩) ∧
    (∀ (work : Nat → Except String α) (e : String),
      work 1 = Except.error e → cls e = ErrorType.PERMANENT →
      ∃ st', executeWithRetry ccfg rcfg st now name work cls =
          (Except.error (permanentMessage name e), 1, st') ∧
        getRetryStats st' name = some
          ⟨((getRetryStats st name).getD ⟨0, 0, none⟩).totalAttempts + 1,
           ((getRetryStats st name).getD ⟨0, 0, none⟩).successfulAttempts,
           some now⟩) ∧
    (∀ (work : Nat → Except String α),
      (∀ i, i ≤ rcfg.maxAttempts → 1 ≤ i → failsTransient cls (work i) = true) →
      ∃ msg st', executeWithRetry ccfg rcfg st now name work cls =
          (Except.error msg, rcfg.maxAttempts, st') ∧
        getRetryStats st' name = some
          ⟨((getRetryStats st name).getD ⟨0, 0, none⟩).totalAttempts + 1,
           ((getRetryStats st name).getD ⟨0, 0, none⟩).successfulAttempts,
           some now⟩) := by
  refine ⟨?_, ?_, ?_⟩
  · intro work v k hk1 hkN hfail hok
    rw [executeWithRetry_of_closed ccfg rcfg st now name work cls hcl]
    obtain ⟨br, hist, hrun⟩ :=
      runAttempts_succeeds ccfg rcfg cls work name now v k rcfg.maxAttempts 0
        st hk1 hkN (fun i hi1 hi2 => hfail i (by omega) (by omega))
        (by simpa using hok)
    refine ⟨⟨br, updateStats st.stats name now true,
      pushHistory hist ⟨name, true, now, k⟩⟩, by simpa using hrun, ?_⟩
    show updateStats st.stats name now true name = _
    simp [updateStats, getRetryStats]
  · intro work e hw hc
    rw [executeWithRetry_of_closed ccfg rcfg st now name work cls hcl]
    obtain ⟨m, hm⟩ : ∃ m, rcfg.maxAttempts = Nat.succ m :=
      ⟨rcfg.maxAttempts - 1, by omega⟩
    rw [hm, runAttempts_permanent ccfg rcfg cls work name now m 0 st hw hc]
    refine ⟨_, rfl, ?_⟩
    show updateStats st.stats name now false name = _
    simp [updateStats, getRetryStats]
  · intro work hfail
    rw [executeWithRetry_of_closed ccfg rcfg st now name work cls hcl]
    obtain ⟨e, br, hist, hwork, hrun⟩ :=
      runAttempts_all_transient ccfg rcfg cls work name now rcfg.maxAttempts 0
        st hN (fun i hi1 hi2 => hfail i (by omega) (by omega))
    refine ⟨exhaustedMessage name rcfg.maxAttempts e,
      ⟨br, updateStats st.stats name now false, hist⟩, by simpa using hrun, ?_⟩
    show updateStats st.stats name now false name = _
    simp [updateStats, getRetryStats]

/-- Witness for C8 (amended): on a fresh engine, a transient-then-success
call reports `totalAttempts = 1, successfulAttempts = 1`; a
permanent-error call reports `totalAttempts = 1, successfulAttempts = 0`;
an all-transient `maxAttempts = 2` call reports
`totalAttempts = 1, successfulAttempts = 0`. -/
theorem retryStats_recorded_per_call_witness :
    (∃ st', @executeWithRetry String ⟨5, 3, 500, 2⟩ ⟨2, 10, 50, 2, false, none⟩
        EngineState.initial 0 "stats-fail"
        (fun i => if i < 2 then Except.error "ECONNREFUSED" else Except.ok "ok")
        defaultClassifier = (Except.ok "ok", 2, st') ∧
      getRetryStats st' "stats-fail" = some ⟨1, 1, some 0⟩) ∧
    (∃ st', @executeWithRetry String ⟨5, 3, 500, 2⟩ ⟨2, 10, 50, 2, false, none⟩
        EngineState.initial 0 "stats-perm"
        (fun _ => Except.error "401 Unauthorized") defaultClassifier =
        (Except.error (permanentMessage "stats-perm" "401 Unauthorized"), 1,
         st') ∧
      getRetryStats st' "stats-perm" = some ⟨1, 0, some 0⟩) ∧
    (∃ msg st', @executeWithRetry String ⟨5, 3, 500, 2⟩
        ⟨2, 10, 50, 2, false, none⟩ EngineState.initial 0 "stats-exhaust"
        (fun _ => Except.error "ETIMEDOUT") defaultClassifier =
        (Except.error msg, 2, st') ∧
      getRetryStats st' "stats-exhaust" = some ⟨1, 0, some 0⟩) :=
  ⟨(@retryStats_recorded_per_call String ⟨5, 3, 500, 2⟩
      ⟨2, 10, 50, 2, false, none⟩ defaultClassifier EngineState.initial 0
      "stats-fail" (by decide) rfl).1
    (fun i => if i < 2 then Except.error "ECONNREFUSED" else Except.ok "ok")
    "ok" 2 (by decide) (by decide)
    (fun i h1 h2 => by interval_cases i; decide) rfl,
   (@retryStats_recorded_per_call String ⟨5, 3, 500, 2⟩
      ⟨2, 10, 50, 2, false, none⟩ defaultClassifier EngineState.initial 0
      "stats-perm" (by decide) rfl).2.1
    (fun _ => Except.error "401 Unauthorized") "401 Unauthorized" rfl
    (by decide),
   (@retryStats_recorded_per_call String ⟨5, 3, 500, 2⟩
      ⟨2, 10, 50, 2, false, none⟩ defaultClassifier EngineState.initial 0
      "stats-exhaust" (by decide) rfl).2.2
    (fun _ => Except.error "ETIMEDOUT")
    (fun i h1 h2 => by interval_cases i <;> decide)⟩

/-! ## Claim C9 — recordSuccess in CLOSED state -/

/-- C9 (counterexample to the claim as stated): on a fresh engine, one
successful call in CLOSED state leaves `successCount = 1` — the counter
is incremented by the call, not unchanged as the claim (following the
spec's "no-op beyond counter reset" prose) states. -/
theorem successCount_in_closed_cex :
    (@executeWithRetry String ⟨5, 3, 500, 2⟩ ⟨3, 10, 50, 2, false, none⟩
      EngineState.initial 0 "cb-op" (fun _ => Except.ok "ok")
      defaultClassifier).2.2.breaker.successCount = 1 ∧
    ¬ (@executeWithRetry String ⟨5, 3, 500, 2⟩ ⟨3, 10, 50, 2, false, none⟩
      EngineState.initial 0 "cb-op" (fun _ => Except.ok "ok")
      defaultClassifier).2.2.breaker.successCount = 0 :=
  ⟨by decide, by decide⟩

/-- C9 (amended): while the breaker is CLOSED, recording a success
resets `consecutiveFailures` to 0, increments `successCount` by 1, and
changes nothing else — after a successful call in CLOSED state,
`getCircuitStats` reports state CLOSED, `consecutiveFailures = 0`,
`successCount` one greater than before, and `totalFailures` /
`lastFailureTime` unchanged. -/
theorem recordSuccess_in_closed_state {α : Type}
    (ccfg : CircuitBreakerConfig) (rcfg : RetryConfig)
    (cls : String → ErrorType) (st : EngineState) (now : Nat)
    (name : String) (work : Nat → Except String α) (v : α)
    (hN : 1 ≤ rcfg.maxAttempts)
    (hcl : st.breaker.state = CircuitState.CLOSED)
    (hok : work 1 = Except.ok v) :
    ∃ st', executeWithRetry ccfg rcfg st now name work cls =
        (Except.ok v, 1, st') ∧
      getCircuitStats st' =
        ⟨CircuitState.CLOSED, 0, (getCircuitStats st).totalFailures,
         (getCircuitStats st).successCount + 1,
         (getCircuitStats st).lastFailureTime⟩ := by
  rw [executeWithRetry_of_closed ccfg rcfg st now name work cls hcl]
  obtain ⟨m, hm⟩ : ∃ m, rcfg.maxAttempts = Nat.succ m :=
    ⟨rcfg.maxAttempts - 1, by omega⟩
  rw [hm, runAttempts_ok ccfg rcfg cls work name now m 0 st hok]
  refine ⟨_, rfl, ?_⟩
  show CircuitBreaker.recordSuccess ccfg st.breaker = _
  exact recordSuccess_closed ccfg st.breaker hcl

/-- Witness for C9 (amended): on a fresh engine, one successful call
reports CLOSED, `consecutiveFailures = 0`, `successCount = 1`. -/
theorem recordSuccess_in_closed_state_witness :
    ∃ st', @executeWithRetry String ⟨5, 3, 500, 2⟩ ⟨3, 10, 50, 2, false, none⟩
        EngineState.initial 0 "cb-op" (fun _ => Except.ok "ok")
        defaultClassifier = (Except.ok "ok", 1, st') ∧
      getCircuitStats st' = ⟨CircuitState.CLOSED, 0, 0, 1, none⟩ :=
  @recordSuccess_in_closed_state String ⟨5, 3, 500, 2⟩
    ⟨3, 10, 50, 2, false, none⟩ defaultClassifier EngineState.initial 0
    "cb-op" (fun _ => Except.ok "ok") "ok" (by decide) rfl rfl

/-! ## Claim C10 — history order and limit -/

/-- C10: `getRetryHistory` returns the global history with the most
recent entry last — after a call that succeeds on invocation `k`, the
final entry is the success entry of that call — and with a `limit`
argument the returned sequence has at most `limit` entries. -/
theorem retryHistory_recent_last_and_limited {α : Type}
    (ccfg : CircuitBreakerConfig) (rcfg : RetryConfig)
    (cls : String → ErrorType) (st : EngineState) (now : Nat)
    (name : String) (work : Nat → Except String α) (v : α) (k : Nat)
    (hk1 : 1 ≤ k) (hkN : k ≤ rcfg.maxAttempts)
    (hcl : st.breaker.state = CircuitState.CLOSED)
    (hfail : ∀ i, i < k → 1 ≤ i → failsTransient cls (work i) = true)
    (hok : work k = Except.ok v) :
    (∃ st' pre, executeWithRetry ccfg rcfg st now name work cls =
        (Except.ok v, k, st') ∧
      getRetryHistory st' none = pre ++ [⟨name, true, now, k⟩]) ∧
    ∀ (s : EngineState) (l : Nat),
      (getRetryHistory s (some l)).length ≤ l := by
  constructor
  · rw [executeWithRetry_of_closed ccfg rcfg st now name work cls hcl]
    obtain ⟨br, hist, hrun⟩ :=
      runAttempts_succeeds ccfg rcfg cls work name now v k rcfg.maxAttempts 0
        st hk1 hkN (fun i hi1 hi2 => hfail i (by omega) (by omega))
        (by simpa using hok)
    obtain ⟨pre, hpre⟩ := pushHistory_suffix hist ⟨name, true, now, k⟩
    refine ⟨⟨br, updateStats st.stats name now true,
      pushHistory hist ⟨name, true, now, k⟩⟩, pre, by simpa using hrun, ?_⟩
    show pushHistory hist ⟨name, true, now, k⟩ = _
    exact hpre
  · intro s l
    show (s.history.drop (s.history.length - l)).length ≤ l
    rw [List.length_drop]
    omega

/-- Witness for C10: a single successful call on a fresh engine ends
with a success entry last, and a limit of 5 on a fresh state yields at
most 5 entries. -/
theorem retryHistory_recent_last_and_limited_witness :
    (∃ st' pre, @executeWithRetry String ⟨5, 3, 500, 2⟩
        ⟨2, 10, 50, 2, false, none⟩ EngineState.initial 0 "history-op"
        (fun _ => Except.ok "ok") defaultClassifier =
        (Except.ok "ok", 1, st') ∧
      getRetryHistory st' none = pre ++ [⟨"history-op", true, 0, 1⟩]) ∧
    (getRetryHistory EngineState.initial (some 5)).length ≤ 5 := by
  have h := @retryHistory_recent_last_and_limited String ⟨5, 3, 500, 2⟩
    ⟨2, 10, 50, 2, false, none⟩ defaultClassifier EngineState.initial 0
    "history-op" (fun _ => Except.ok "ok") "ok" 1 (by decide) (by decide) rfl
    (fun i h1 h2 => by omega) rfl
  exact ⟨h.1, h.2 EngineState.initial 5⟩

end StellarSuite
